import Mathlib

/-!
Verification of the chat-relay server (`src/bin/server.rs`) of the
`chatty_rusty` repository.

The server keeps a shared registry `Db = Arc<Mutex<HashMap<String,
OwnedWriteHalf>>>`, mapping each client's stringified remote address to
the write half of its TCP stream.  We embed it shallowly:

* a registry is an association list `List (String × Nat)` with
  `HashMap`-style single-key semantics: `insertEntry` replaces any
  existing entry, `removeEntry` deletes the entry if present;
  a `Nat` stands for an `OwnedWriteHalf` handle;
* the broadcast fanout (the `for (client_addr, writer) in db_lock.iter_mut()`
  loop inside `handle_client`) is `broadcastExcept`, which records every
  attempted `write_all` as an `Attempt`; per-handle write failures are an
  oracle `fails : Nat → Bool` (the code only logs a failed write and keeps
  iterating);
* a client session (`handle_client`) consumes a list of `read_line`
  outcomes: `ReadEvent.line s` (Ok(n), n > 0, text `s` appended to the
  line buffer), `ReadEvent.eof` (Ok(0)), `ReadEvent.rerr p` (Err after
  appending the bytes `p` that had already arrived);
* the acceptor loop of `main` consumes a list of `accept` outcomes;
  `listener.accept().await.unwrap()` panics on `Err`, which we model by
  stopping the loop with `panicked := true`;
* the tokio `Mutex` discipline around the fanout is modelled by a lock
  automaton `runLock` over traces of `(taskId, Instr)` events, with
  `broadcastProgram` the instruction block that `handle_client` runs
  inside the critical section (lock, one write per recipient, drop).
-/

/-- A write half handle (`OwnedWriteHalf`), identified by a number. -/
abbrev Handle := Nat

/-- The registry: `HashMap<String, OwnedWriteHalf>` as an association list. -/
abbrev Registry := List (String × Handle)

/-- `HashMap::remove(&addr)`: delete the entry for `id` if present. -/
def removeEntry (id : String) (db : Registry) : Registry :=
  db.filter (fun e => e.1 ≠ id)

/-- `HashMap::insert(addr, writer)`: add or replace the entry for `id`. -/
def insertEntry (id : String) (h : Handle) (db : Registry) : Registry :=
  (id, h) :: removeEntry id db

/-- `HashMap::get`-style lookup, used to state registry properties. -/
def lookupEntry (id : String) : Registry → Option Handle
  | [] => none
  | (cid, h) :: rest => if cid = id then some h else lookupEntry id rest

/-- One attempted `writer.write_all(msg.as_bytes())` during a fanout:
the recipient's identifier, its handle, the bytes written, and whether
the write succeeded (`ok = false` models the `Err(e)` branch, which the
code only logs). -/
structure Attempt where
  rcpt : String
  handle : Handle
  payload : String
  ok : Bool
deriving Repr, DecidableEq

/-- Result of one fanout: the registry as left behind by the iteration,
and the list of attempted writes in iteration order. -/
structure BroadcastResult where
  db : Registry
  attempts : List Attempt
deriving Repr, DecidableEq

/-- The broadcast fanout of `handle_client` (the `for` loop over
`db_lock.iter_mut()`): for every entry whose identifier differs from the
sender, attempt to write `msg`; a failed write (`fails h = true`) is
logged and iteration continues.  The registry is traversed entry by
entry and rebuilt unchanged (`iter_mut` never inserts, removes or
re-keys). -/
def broadcastExcept (sender msg : String) (fails : Handle → Bool) :
    Registry → BroadcastResult
  | [] => ⟨[], []⟩
  | (cid, h) :: rest =>
    let r := broadcastExcept sender msg fails rest
    if cid ≠ sender then
      ⟨(cid, h) :: r.db, ⟨cid, h, msg, !fails h⟩ :: r.attempts⟩
    else
      ⟨(cid, h) :: r.db, r.attempts⟩

/-- One outcome of `buf_reader.read_line(&mut line).await`. -/
inductive ReadEvent
  | line (s : String)
  | eof
  | rerr (pdata : String)
deriving Repr, DecidableEq

/-- Result of running a client session: final registry, final content of
the line buffer, the broadcast payloads in order (one per received
line), all attempted writes, and whether the read loop exited via
`break`. -/
structure SessionResult where
  db : Registry
  buf : String
  msgs : List String
  attempts : List Attempt
  terminated : Bool
deriving Repr, DecidableEq

/-- The read→broadcast loop of `handle_client`.  `Ok(0)` breaks;
`Ok(n)` formats `msg = format!("{}: {}", addr, line)` from the whole
line buffer (to which `read_line` appended), locks the registry, fans
out, then clears the buffer (`line.clear()`); `Err(e)` logs and breaks
(any bytes already appended stay in the buffer and are never
broadcast). -/
def runLoop (addr : String) (fails : Handle → Bool) :
    List ReadEvent → Registry → String → SessionResult
  | [], db, buf => ⟨db, buf, [], [], false⟩
  | .eof :: _, db, buf => ⟨db, buf, [], [], true⟩
  | .rerr p :: _, db, buf => ⟨db, buf ++ p, [], [], true⟩
  | .line s :: rest, db, buf =>
    let msg := addr ++ ": " ++ (buf ++ s)
    let b := broadcastExcept addr msg fails db
    let r := runLoop addr fails rest b.db ""
    ⟨r.db, r.buf, msg :: r.msgs, b.attempts ++ r.attempts, r.terminated⟩

/-- `handle_client(socket, addr, db)`: split the socket (the write half
becomes handle `h`), insert the write half into the registry, run the
read loop starting from an empty line buffer, and — once the loop has
broken — remove this client's entry.  If the event list runs out
without a terminating event the session is still awaiting a line, so
the removal has not happened yet. -/
def handle_client (addr : String) (h : Handle) (fails : Handle → Bool)
    (events : List ReadEvent) (db0 : Registry) : SessionResult :=
  let db1 := insertEntry addr h db0
  let r := runLoop addr fails events db1 ""
  if r.terminated then { r with db := removeEntry addr r.db } else r

/-- One outcome of `listener.accept().await`. -/
inductive AcceptEvent
  | conn (addr : String)
  | aerr
deriving Repr, DecidableEq

/-- Result of running the acceptor loop of `main`: the identifiers for
which a session task was spawned, and whether the process panicked. -/
structure AcceptorResult where
  spawned : List String
  panicked : Bool
deriving Repr, DecidableEq

/-- The acceptor loop of `main`: `loop { let (socket, addr) =
listener.accept().await.unwrap(); ... tokio::spawn(handle_client ...) }`.
A successful accept spawns a session for the stringified peer address
and continues; an accept error hits `.unwrap()`, which panics and
terminates the whole process, so no later event is processed. -/
def acceptorLoop : List AcceptEvent → AcceptorResult
  | [] => ⟨[], false⟩
  | .conn addr :: rest =>
    let r := acceptorLoop rest
    ⟨addr :: r.spawned, r.panicked⟩
  | .aerr :: _ => ⟨[], true⟩

/-- The addresses of the successful accepts in an event list, in order. -/
def connAddrs (evs : List AcceptEvent) : List String :=
  evs.filterMap (fun e => match e with | .conn a => some a | _ => none)

-- Sanity checks on concrete runs (removed later if needed).
example :
    broadcastExcept "A" "A: hi\n" (fun _ => false) [("A", 1), ("B", 2), ("C", 3)] =
      ⟨[("A", 1), ("B", 2), ("C", 3)],
       [⟨"B", 2, "A: hi\n", true⟩, ⟨"C", 3, "A: hi\n", true⟩]⟩ := by
  decide

example :
    handle_client "A" 1 (fun _ => false) [.line "hi\n", .eof] [("B", 2)] =
      ⟨[("B", 2)], "", ["A: hi\n"], [⟨"B", 2, "A: hi\n", true⟩], true⟩ := by
  decide

example : acceptorLoop [.conn "x", .aerr, .conn "y"] = ⟨["x"], true⟩ := by
  decide

/-! ### Helper lemmas -/

lemma broadcastExcept_attempts (sender msg : String) (fails : Handle → Bool)
    (db : Registry) :
    (broadcastExcept sender msg fails db).attempts =
      (db.filter (fun e => e.1 ≠ sender)).map
        (fun e => Attempt.mk e.1 e.2 msg (!fails e.2)) := by
  induction db with
  | nil => rfl
  | cons e rest ih =>
    obtain ⟨cid, h⟩ := e
    by_cases hc : cid ≠ sender <;>
      simp [broadcastExcept, hc, ih, List.filter_cons]

lemma broadcastExcept_db_eq (sender msg : String) (fails : Handle → Bool)
    (db : Registry) :
    (broadcastExcept sender msg fails db).db = db := by
  induction db with
  | nil => rfl
  | cons e rest ih =>
    obtain ⟨cid, h⟩ := e
    by_cases hc : cid ≠ sender <;> simp [broadcastExcept, hc, ih]

lemma lookupEntry_eq_none_iff (id : String) (db : Registry) :
    lookupEntry id db = none ↔ ∀ e ∈ db, e.1 ≠ id := by
  induction db with
  | nil => simp [lookupEntry]
  | cons e rest ih =>
    obtain ⟨cid, h⟩ := e
    by_cases hc : cid = id <;> simp [lookupEntry, hc, ih]

lemma lookupEntry_removeEntry_self (id : String) (db : Registry) :
    lookupEntry id (removeEntry id db) = none := by
  rw [lookupEntry_eq_none_iff]
  intro e he
  have := List.of_mem_filter he
  simpa using this

lemma lookupEntry_removeEntry_other (id j : String) (db : Registry)
    (hj : j ≠ id) :
    lookupEntry j (removeEntry id db) = lookupEntry j db := by
  induction db with
  | nil => rfl
  | cons e rest ih =>
    obtain ⟨cid, h⟩ := e
    simp only [removeEntry, ne_eq, decide_not, List.filter_cons] at ih ⊢
    by_cases hc : cid = id
    · subst hc
      simp [lookupEntry, Ne.symm hj, ih]
    · simp [lookupEntry, hc, ih]

lemma removeEntry_of_absent (id : String) (db : Registry)
    (habs : lookupEntry id db = none) : removeEntry id db = db := by
  rw [lookupEntry_eq_none_iff] at habs
  exact List.filter_eq_self.mpr (fun e he => by simpa using habs e he)

lemma lookupEntry_mem {j : String} {h : Handle} {db : Registry}
    (hl : lookupEntry j db = some h) : (j, h) ∈ db := by
  induction db with
  | nil => simp [lookupEntry] at hl
  | cons e rest ih =>
    obtain ⟨cid, hd⟩ := e
    by_cases hc : cid = j
    · subst hc
      simp [lookupEntry] at hl
      simp [hl]
    · simp [lookupEntry, hc] at hl
      exact List.mem_cons_of_mem _ (ih hl)

lemma mem_broadcastExcept_attempts {j : String} {h : Handle}
    (sender msg : String) (fails : Handle → Bool) {db : Registry}
    (hmem : (j, h) ∈ db) (hne : j ≠ sender) :
    Attempt.mk j h msg (!fails h) ∈ (broadcastExcept sender msg fails db).attempts := by
  rw [broadcastExcept_attempts]
  exact List.mem_map.mpr ⟨(j, h), List.mem_filter.mpr ⟨hmem, by simpa using hne⟩, rfl⟩

lemma attempts_rcpt_ne_sender {a : Attempt} (sender msg : String)
    (fails : Handle → Bool) (db : Registry)
    (ha : a ∈ (broadcastExcept sender msg fails db).attempts) : a.rcpt ≠ sender := by
  rw [broadcastExcept_attempts] at ha
  obtain ⟨e, he, rfl⟩ := List.mem_map.mp ha
  simpa using (List.mem_filter.mp he).2

lemma attempts_payload_eq {a : Attempt} (sender msg : String)
    (fails : Handle → Bool) (db : Registry)
    (ha : a ∈ (broadcastExcept sender msg fails db).attempts) : a.payload = msg := by
  rw [broadcastExcept_attempts] at ha
  obtain ⟨e, _, rfl⟩ := List.mem_map.mp ha
  rfl

/-- The attempted writes produced by a sequence of received lines, the
registry being unchanged throughout the fanouts. -/
def lineAttempts (addr : String) (fails : Handle → Bool) (db : Registry)
    (ls : List String) : List Attempt :=
  ls.flatMap (fun l => (broadcastExcept addr (addr ++ ": " ++ l) fails db).attempts)

lemma runLoop_lines_append (addr : String) (fails : Handle → Bool)
    (ls : List String) (tail : List ReadEvent) (db : Registry) :
    runLoop addr fails (ls.map ReadEvent.line ++ tail) db "" =
      { runLoop addr fails tail db "" with
        msgs := ls.map (fun l => addr ++ ": " ++ l) ++
          (runLoop addr fails tail db "").msgs,
        attempts := lineAttempts addr fails db ls ++
          (runLoop addr fails tail db "").attempts } := by
  induction ls with
  | nil => simp [lineAttempts]
  | cons l ls ih =>
    have hdb : (broadcastExcept addr (addr ++ ": " ++ l) fails db).db = db :=
      broadcastExcept_db_eq _ _ _ _
    have hemp : ("" : String) ++ l = l := rfl
    simp only [List.map_cons, List.cons_append, List.append_eq, runLoop, hemp, hdb, ih,
      lineAttempts, List.flatMap_cons, List.map, List.append_assoc]

lemma runLoop_attempts_payload (addr : String) (fails : Handle → Bool) :
    ∀ (events : List ReadEvent) (db : Registry) (a : Attempt),
      a ∈ (runLoop addr fails events db "").attempts →
      ∃ s, ReadEvent.line s ∈ events ∧ a.payload = addr ++ ": " ++ s ∧
        a.rcpt ≠ addr := by
  intro events
  induction events with
  | nil => intro db a ha; simp [runLoop] at ha
  | cons e rest ih =>
    intro db a ha
    cases e with
    | eof => simp [runLoop] at ha
    | rerr p => simp [runLoop] at ha
    | line s =>
      have hemp : ("" : String) ++ s = s := rfl
      simp only [runLoop, hemp, List.mem_append] at ha
      rcases ha with hb | hr
      · refine ⟨s, by simp, ?_, ?_⟩
        · exact attempts_payload_eq addr _ fails db hb
        · exact attempts_rcpt_ne_sender addr _ fails db hb
      · obtain ⟨t, ht, hpay, hrc⟩ := ih _ a hr
        exact ⟨t, by simp [ht], hpay, hrc⟩

lemma handle_client_attempts (addr : String) (h : Handle) (fails : Handle → Bool)
    (events : List ReadEvent) (db0 : Registry) :
    (handle_client addr h fails events db0).attempts =
      (runLoop addr fails events (insertEntry addr h db0) "").attempts := by
  cases ht : (runLoop addr fails events (insertEntry addr h db0) "").terminated <;>
    simp [handle_client, ht]

lemma handle_client_msgs (addr : String) (h : Handle) (fails : Handle → Bool)
    (events : List ReadEvent) (db0 : Registry) :
    (handle_client addr h fails events db0).msgs =
      (runLoop addr fails events (insertEntry addr h db0) "").msgs := by
  cases ht : (runLoop addr fails events (insertEntry addr h db0) "").terminated <;>
    simp [handle_client, ht]

/-! ### Claims -/

/-- C2: every byte sequence written to a recipient during a session's
broadcasts equals the sender's identifier, then the two characters
`": "`, then the line as read from the client (including its trailing
newline, which `read_line` keeps in the buffer). -/
theorem C2_broadcast_payload_format (addr : String) (h : Handle)
    (fails : Handle → Bool) (events : List ReadEvent) (db0 : Registry)
    (a : Attempt) (ha : a ∈ (handle_client addr h fails events db0).attempts) :
    ∃ s, ReadEvent.line s ∈ events ∧ a.payload = addr ++ ": " ++ s := by
  rw [handle_client_attempts] at ha
  obtain ⟨s, hs, hpay, _⟩ := runLoop_attempts_payload addr fails events _ a ha
  exact ⟨s, hs, hpay⟩

theorem C2_broadcast_payload_format_witness :
    Attempt.mk "B" 2 "A: hi\n" true ∈
        (handle_client "A" 1 (fun _ => false)
          [ReadEvent.line "hi\n", ReadEvent.eof] [("B", 2)]).attempts ∧
      ∃ s, ReadEvent.line s ∈ [ReadEvent.line "hi\n", ReadEvent.eof] ∧
        (Attempt.mk "B" 2 "A: hi\n" true).payload = "A" ++ ": " ++ s :=
  ⟨by decide,
   C2_broadcast_payload_format "A" 1 (fun _ => false)
     [ReadEvent.line "hi\n", ReadEvent.eof] [("B", 2)]
     (Attempt.mk "B" 2 "A: hi\n" true) (by decide)⟩

/-- C3: a broadcast from sender `A` over a registry holding entries for
`A`, `B` and `C` attempts a write of the formatted message to `B`'s
handle and to `C`'s handle, and never attempts a write to `A` itself
(the `if *client_addr != addr` guard). -/
theorem C3_sender_exclusion (A B C msg : String) (fails : Handle → Bool)
    (db : Registry) (ha hb hc : Handle)
    (hBA : B ≠ A) (hCA : C ≠ A)
    (_hA : lookupEntry A db = some ha)
    (hB : lookupEntry B db = some hb)
    (hC : lookupEntry C db = some hc) :
    Attempt.mk B hb msg (!fails hb) ∈ (broadcastExcept A msg fails db).attempts ∧
      Attempt.mk C hc msg (!fails hc) ∈ (broadcastExcept A msg fails db).attempts ∧
      ∀ a ∈ (broadcastExcept A msg fails db).attempts, a.rcpt ≠ A :=
  ⟨mem_broadcastExcept_attempts A msg fails (lookupEntry_mem hB) hBA,
   mem_broadcastExcept_attempts A msg fails (lookupEntry_mem hC) hCA,
   fun _ haa => attempts_rcpt_ne_sender A msg fails db haa⟩

theorem C3_sender_exclusion_witness :
    Attempt.mk "B" 2 "A: hi\n" true ∈
        (broadcastExcept "A" "A: hi\n" (fun _ => false)
          [("A", 1), ("B", 2), ("C", 3)]).attempts ∧
      Attempt.mk "C" 3 "A: hi\n" true ∈
        (broadcastExcept "A" "A: hi\n" (fun _ => false)
          [("A", 1), ("B", 2), ("C", 3)]).attempts ∧
      ∀ a ∈ (broadcastExcept "A" "A: hi\n" (fun _ => false)
          [("A", 1), ("B", 2), ("C", 3)]).attempts, a.rcpt ≠ "A" :=
  C3_sender_exclusion "A" "B" "C" "A: hi\n" (fun _ => false)
    [("A", 1), ("B", 2), ("C", 3)] 1 2 3
    (by decide) (by decide) (by decide) (by decide) (by decide)

/-- C4: the list of attempted writes of a fanout — each recipient, its
handle and the full payload — is the same whatever the per-handle
failure pattern `fails` is: a failed `write_all` is only logged, so a
failure for one recipient never aborts the attempts to the remaining
recipients. -/
theorem C4_fanout_not_aborted (sender msg : String) (fails : Handle → Bool)
    (db : Registry) :
    (broadcastExcept sender msg fails db).attempts.map
        (fun a => (a.rcpt, a.handle, a.payload)) =
      (db.filter (fun e => e.1 ≠ sender)).map (fun e => (e.1, e.2, msg)) := by
  rw [broadcastExcept_attempts, List.map_map]
  rfl

/-- C6: `HashMap::remove` deletes the entry for `id` when present and is
an unchanged-registry no-op (not an error) when `id` is absent; entries
for other identifiers are untouched. -/
theorem C6_remove_semantics (id : String) (db : Registry) :
    (lookupEntry id db = none → removeEntry id db = db) ∧
      lookupEntry id (removeEntry id db) = none ∧
      ∀ j, j ≠ id → lookupEntry j (removeEntry id db) = lookupEntry j db :=
  ⟨removeEntry_of_absent id db, lookupEntry_removeEntry_self id db,
   fun j hj => lookupEntry_removeEntry_other id j db hj⟩

theorem C6_remove_semantics_witness :
    removeEntry "x" [("a", 1)] = [("a", 1)] ∧
      lookupEntry "a" (removeEntry "a" [("a", 1), ("b", 2)]) = none ∧
      lookupEntry "b" (removeEntry "a" [("a", 1), ("b", 2)]) =
        lookupEntry "b" [("a", 1), ("b", 2)] :=
  ⟨(C6_remove_semantics "x" [("a", 1)]).1 (by decide),
   (C6_remove_semantics "a" [("a", 1), ("b", 2)]).2.1,
   (C6_remove_semantics "a" [("a", 1), ("b", 2)]).2.2 "b" (by decide)⟩

/-- C7: a fanout leaves the registry mapping exactly as it found it —
no entry is inserted, removed or re-keyed, whatever the failure pattern
of the recipients' handles. -/
theorem C7_broadcast_preserves_registry (sender msg : String)
    (fails : Handle → Bool) (db : Registry) :
    (broadcastExcept sender msg fails db).db = db :=
  broadcastExcept_db_eq sender msg fails db

/-- C9: because `line.clear()` runs after every broadcast (and
`read_line` appends), a session whose reads are the lines `ls` emits
broadcast payloads that are exactly the corresponding lines, each
prefixed `"<addr>: "` — the n-th payload carries the n-th line and no
text carried over from earlier lines. -/
theorem C9_buffer_cleared_between_lines (addr : String) (h : Handle)
    (fails : Handle → Bool) (ls : List String) (db0 : Registry) :
    (handle_client addr h fails (ls.map ReadEvent.line) db0).msgs =
      ls.map (fun l => addr ++ ": " ++ l) := by
  rw [handle_client_msgs]
  have h1 := runLoop_lines_append addr fails ls [] (insertEntry addr h db0)
  simp only [List.append_nil] at h1
  rw [h1]
  simp [runLoop]

lemma runLoop_lines_rerr (addr : String) (fails : Handle → Bool)
    (ls : List String) (p : String) (rest : List ReadEvent) (db : Registry) :
    runLoop addr fails (ls.map ReadEvent.line ++ ReadEvent.rerr p :: rest) db "" =
      ⟨db, "" ++ p, ls.map (fun l => addr ++ ": " ++ l),
       lineAttempts addr fails db ls, true⟩ := by
  rw [runLoop_lines_append]
  simp [runLoop]

lemma runLoop_lines_eof (addr : String) (fails : Handle → Bool)
    (ls : List String) (rest : List ReadEvent) (db : Registry) :
    runLoop addr fails (ls.map ReadEvent.line ++ ReadEvent.eof :: rest) db "" =
      ⟨db, "", ls.map (fun l => addr ++ ": " ++ l),
       lineAttempts addr fails db ls, true⟩ := by
  rw [runLoop_lines_append]
  simp [runLoop]

lemma handle_client_terminated_db (addr : String) (h : Handle)
    (fails : Handle → Bool) (events : List ReadEvent) (db0 : Registry)
    (ht : (runLoop addr fails events (insertEntry addr h db0) "").terminated = true) :
    (handle_client addr h fails events db0).db =
      removeEntry addr (runLoop addr fails events (insertEntry addr h db0) "").db := by
  simp [handle_client, ht]

lemma handle_client_terminated (addr : String) (h : Handle)
    (fails : Handle → Bool) (events : List ReadEvent) (db0 : Registry) :
    (handle_client addr h fails events db0).terminated =
      (runLoop addr fails events (insertEntry addr h db0) "").terminated := by
  cases ht : (runLoop addr fails events (insertEntry addr h db0) "").terminated <;>
    simp [handle_client, ht]

/-- C10: a read error after the lines `ls` (with possibly some bytes `p`
already appended to the buffer) triggers no broadcast for that
iteration: the payloads and attempted writes are exactly those of the
preceding lines, the loop breaks, and the session's identifier is
removed from the registry. -/
theorem C10_read_error_no_broadcast (addr : String) (h : Handle)
    (fails : Handle → Bool) (ls : List String) (p : String)
    (rest : List ReadEvent) (db0 : Registry) :
    (handle_client addr h fails (ls.map ReadEvent.line ++ ReadEvent.rerr p :: rest)
        db0).msgs = ls.map (fun l => addr ++ ": " ++ l) ∧
      (handle_client addr h fails (ls.map ReadEvent.line ++ ReadEvent.rerr p :: rest)
        db0).attempts = lineAttempts addr fails (insertEntry addr h db0) ls ∧
      (handle_client addr h fails (ls.map ReadEvent.line ++ ReadEvent.rerr p :: rest)
        db0).terminated = true ∧
      lookupEntry addr (handle_client addr h fails
        (ls.map ReadEvent.line ++ ReadEvent.rerr p :: rest) db0).db = none := by
  have hr := runLoop_lines_rerr addr fails ls p rest (insertEntry addr h db0)
  have ht : (runLoop addr fails (ls.map ReadEvent.line ++ ReadEvent.rerr p :: rest)
      (insertEntry addr h db0) "").terminated = true := by rw [hr]
  refine ⟨?_, ?_, ?_, ?_⟩
  · rw [handle_client_msgs, hr]
  · rw [handle_client_attempts, hr]
  · rw [handle_client_terminated, ht]
  · rw [handle_client_terminated_db addr h fails _ db0 ht, hr]
    exact lookupEntry_removeEntry_self addr _

/-- C5: whether the read loop ends by a zero-byte read (`Ok(0)`, clean
disconnect) or by a read error (`Err`), the session removes its own
identifier from the registry before terminating, so the identifier is
absent afterwards. -/
theorem C5_disconnect_removes_identifier (addr : String) (h : Handle)
    (fails : Handle → Bool) (ls : List String) (p : String)
    (rest : List ReadEvent) (db0 : Registry) :
    (lookupEntry addr (handle_client addr h fails
          (ls.map ReadEvent.line ++ ReadEvent.eof :: rest) db0).db = none ∧
        (handle_client addr h fails (ls.map ReadEvent.line ++ ReadEvent.eof :: rest)
          db0).terminated = true) ∧
      lookupEntry addr (handle_client addr h fails
          (ls.map ReadEvent.line ++ ReadEvent.rerr p :: rest) db0).db = none ∧
        (handle_client addr h fails (ls.map ReadEvent.line ++ ReadEvent.rerr p :: rest)
          db0).terminated = true := by
  have he := runLoop_lines_eof addr fails ls rest (insertEntry addr h db0)
  have hte : (runLoop addr fails (ls.map ReadEvent.line ++ ReadEvent.eof :: rest)
      (insertEntry addr h db0) "").terminated = true := by rw [he]
  have hr := runLoop_lines_rerr addr fails ls p rest (insertEntry addr h db0)
  have htr : (runLoop addr fails (ls.map ReadEvent.line ++ ReadEvent.rerr p :: rest)
      (insertEntry addr h db0) "").terminated = true := by rw [hr]
  refine ⟨⟨?_, ?_⟩, ?_, ?_⟩
  · rw [handle_client_terminated_db addr h fails _ db0 hte]
    exact lookupEntry_removeEntry_self addr _
  · rw [handle_client_terminated, hte]
  · rw [handle_client_terminated_db addr h fails _ db0 htr]
    exact lookupEntry_removeEntry_self addr _
  · rw [handle_client_terminated, htr]

/-- C1 as stated is false: `main` unwraps the result of
`listener.accept()`, so a single accept error panics — after the error
the loop has terminated (`panicked`) and the following incoming
connection is never accepted. -/
theorem C1_accept_error_counterexample :
    (acceptorLoop [AcceptEvent.aerr, AcceptEvent.conn "127.0.0.1:50001"]).panicked
        = true ∧
      (acceptorLoop [AcceptEvent.aerr, AcceptEvent.conn "127.0.0.1:50001"]).spawned
        = [] := by
  decide

/-- C1 amended: an accept error is fatal — the acceptor loop spawns
sessions only for the connections accepted before the first error and
then terminates the whole process, accepting nothing further. -/
theorem C1_accept_error_fatal (pre rest : List AcceptEvent)
    (hpre : AcceptEvent.aerr ∉ pre) :
    acceptorLoop (pre ++ AcceptEvent.aerr :: rest) =
      ⟨connAddrs pre, true⟩ := by
  induction pre with
  | nil => rfl
  | cons e pre ih =>
    cases e with
    | conn a =>
      have h2 : AcceptEvent.aerr ∉ pre := fun hh => hpre (List.mem_cons_of_mem _ hh)
      simp [acceptorLoop, connAddrs, List.filterMap_cons, ih h2]
    | aerr => exact absurd (List.mem_cons_self _ _) hpre

theorem C1_accept_error_fatal_witness :
    acceptorLoop [AcceptEvent.conn "a", AcceptEvent.aerr, AcceptEvent.conn "b"] =
      ⟨["a"], true⟩ :=
  C1_accept_error_fatal [AcceptEvent.conn "a"] [AcceptEvent.conn "b"] (by decide)

/-! ### Broadcast atomicity under the registry mutex (C8)

`handle_client` performs its whole fanout between `db.lock().await` and
`drop(db_lock)`.  We model the tokio `Mutex` by a lock automaton over
traces of `(taskId, instruction)` events: acquiring needs the lock free,
and writing to a recipient or releasing needs the lock held by the
acting task.  `runLock` returns the lock state after a trace, or `none`
if the trace violates the discipline (no such execution exists). -/

/-- One step a session task takes with respect to the registry mutex:
`db.lock().await`, one `writer.write_all` inside the fanout loop, or
`drop(db_lock)`. -/
inductive Instr
  | acquire
  | write (rcpt : String) (payload : String)
  | release
deriving Repr, DecidableEq

/-- The mutex automaton: given the current holder (if any), process a
trace of events; `none` means some event broke the mutual-exclusion
discipline. -/
def runLock : Option Nat → List (Nat × Instr) → Option (Option Nat)
  | l, [] => some l
  | none, (i, .acquire) :: rest => runLock (some i) rest
  | none, _ :: _ => none
  | some i, (j, .write _ _) :: rest =>
    if j = i then runLock (some i) rest else none
  | some i, (j, .release) :: rest =>
    if j = i then runLock none rest else none
  | some _, (_, .acquire) :: _ => none

/-- The instructions task `i` performs in a trace, in order. -/
def proj (i : Nat) (evs : List (Nat × Instr)) : List Instr :=
  (evs.filter (fun e => e.1 = i)).map Prod.snd

/-- The critical section `handle_client` runs for one broadcast:
`db.lock().await`, one write per recipient of the fanout, then
`drop(db_lock)`. -/
def broadcastBlock (sender msg : String) (fails : Handle → Bool)
    (db : Registry) : List Instr :=
  Instr.acquire ::
    (((broadcastExcept sender msg fails db).attempts.map
      (fun a => Instr.write a.rcpt a.payload)) ++ [Instr.release])

lemma runLock_append (xs ys : List (Nat × Instr)) :
    ∀ l, runLock l (xs ++ ys) = (runLock l xs).bind (fun m => runLock m ys) := by
  induction xs with
  | nil => intro l; simp [runLock]
  | cons e xs ih =>
    intro l
    obtain ⟨j, ins⟩ := e
    cases l with
    | none =>
      cases ins with
      | acquire => simpa [runLock] using ih (some j)
      | write r p => simp [runLock]
      | release => simp [runLock]
    | some i =>
      cases ins with
      | acquire => simp [runLock]
      | write r p => by_cases hj : j = i <;> simp [runLock, hj, ih]
      | release => by_cases hj : j = i <;> simp [runLock, hj, ih]

lemma runLock_held_events {i : Nat} :
    ∀ evs : List (Nat × Instr), (runLock (some i) evs).isSome →
      (i, Instr.release) ∉ evs → ∀ e ∈ evs, e.1 = i := by
  intro evs
  induction evs with
  | nil => intro _ _ e he; simp at he
  | cons e0 evs ih =>
    intro hval hnorel e he
    obtain ⟨j, ins⟩ := e0
    cases ins with
    | acquire => simp [runLock] at hval
    | write r p =>
      by_cases hj : j = i
      · subst hj
        rcases List.mem_cons.mp he with rfl | hmem
        · rfl
        · refine ih ?_ ?_ e hmem
          · simpa [runLock] using hval
          · exact fun hh => hnorel (List.mem_cons_of_mem _ hh)
      · simp [runLock, hj] at hval
    | release =>
      by_cases hj : j = i
      · subst hj
        exact absurd (List.mem_cons_self _ _) hnorel
      · simp [runLock, hj] at hval

lemma proj_append (i : Nat) (xs ys : List (Nat × Instr)) :
    proj i (xs ++ ys) = proj i xs ++ proj i ys := by
  simp [proj, List.filter_append]

lemma proj_cons_self (i : Nat) (ins : Instr) (evs : List (Nat × Instr)) :
    proj i ((i, ins) :: evs) = ins :: proj i evs := by
  simp [proj, List.filter_cons]

lemma proj_of_all_self {i : Nat} :
    ∀ evs : List (Nat × Instr), (∀ e ∈ evs, e.1 = i) →
      proj i evs = evs.map Prod.snd := by
  intro evs
  induction evs with
  | nil => intro _; rfl
  | cons e0 evs ih =>
    intro hall
    obtain ⟨j, ins⟩ := e0
    have hj : j = i := hall (j, ins) (List.mem_cons_self _ _)
    subst hj
    rw [proj_cons_self, ih (fun e he => hall e (List.mem_cons_of_mem _ he))]
    rfl

lemma eq_map_pair_of_snd {i : Nat} :
    ∀ (l : List (Nat × Instr)) (w : List Instr),
      (∀ e ∈ l, e.1 = i) → l.map Prod.snd = w →
      l = w.map (fun ins => (i, ins)) := by
  intro l
  induction l with
  | nil =>
    intro w _ hw
    simp at hw
    simp [← hw]
  | cons e0 l ih =>
    intro w hall hw
    obtain ⟨j, ins⟩ := e0
    have hj : j = i := hall (j, ins) (List.mem_cons_self _ _)
    subst hj
    cases w with
    | nil => simp at hw
    | cons wi w =>
      simp only [List.map_cons, List.cons.injEq] at hw
      obtain ⟨rfl, hw2⟩ := hw
      simp only [List.map_cons, List.cons.injEq]
      exact ⟨by simp, ih w (fun e he => hall e (List.mem_cons_of_mem _ he)) hw2⟩

/-- C8: in every trace obeying the registry mutex, everything that
happens between a task's `db.lock().await` and the matching
`drop(db_lock)` of one broadcast is performed by that task alone: the
trace segment is exactly the broadcast's own per-recipient writes, so
no other task's write — and hence no byte of another broadcast — is
interleaved into any recipient's stream during the fanout. -/
theorem C8_broadcast_writes_not_interleaved
    (i : Nat) (sender msg : String) (fails : Handle → Bool) (db : Registry)
    (pre mid post : List (Nat × Instr))
    (hvalid : (runLock none
      (pre ++ ((i, Instr.acquire) :: (mid ++ ((i, Instr.release) :: post))))).isSome)
    (hnorel : (i, Instr.release) ∉ mid)
    (hproj : proj i ((i, Instr.acquire) :: (mid ++ [(i, Instr.release)])) =
      broadcastBlock sender msg fails db) :
    mid = (broadcastExcept sender msg fails db).attempts.map
      (fun a => (i, Instr.write a.rcpt a.payload)) := by
  rw [runLock_append pre] at hvalid
  obtain ⟨l1, hl1, hrest⟩ : ∃ l1, runLock none pre = some l1 ∧
      (runLock l1
        ((i, Instr.acquire) :: (mid ++ ((i, Instr.release) :: post)))).isSome := by
    cases hp : runLock none pre with
    | none => rw [hp] at hvalid; simp at hvalid
    | some l1 => rw [hp] at hvalid; exact ⟨l1, rfl, by simpa using hvalid⟩
  have hl1none : l1 = none := by
    cases l1 with
    | none => rfl
    | some k => simp [runLock] at hrest
  subst hl1none
  have hmid0 : (runLock (some i) (mid ++ ((i, Instr.release) :: post))).isSome := by
    simpa [runLock] using hrest
  rw [runLock_append mid] at hmid0
  have hmidOk : (runLock (some i) mid).isSome := by
    cases hm : runLock (some i) mid with
    | none => rw [hm] at hmid0; simp at hmid0
    | some l2 => simp
  have hall : ∀ e ∈ mid, e.1 = i := runLock_held_events mid hmidOk hnorel
  have hpm : proj i mid = mid.map Prod.snd := proj_of_all_self mid hall
  have hproj2 : Instr.acquire :: (mid.map Prod.snd ++ [Instr.release]) =
      broadcastBlock sender msg fails db := by
    rw [← hproj, proj_cons_self, proj_append, hpm]
    simp [proj]
  have hw : mid.map Prod.snd =
      (broadcastExcept sender msg fails db).attempts.map
        (fun a => Instr.write a.rcpt a.payload) := by
    rw [broadcastBlock] at hproj2
    simp only [List.cons.injEq] at hproj2
    exact List.append_cancel_right hproj2.2
  have hfinal := eq_map_pair_of_snd mid _ hall hw
  rw [hfinal, List.map_map]
  rfl

theorem C8_broadcast_writes_not_interleaved_witness :
    (runLock none [(1, Instr.acquire), (1, Instr.release), (0, Instr.acquire),
        (0, Instr.write "B" "A: hi\n"), (0, Instr.release)]).isSome ∧
      [(0, Instr.write "B" "A: hi\n")] =
        (broadcastExcept "A" "A: hi\n" (fun _ => false)
            [("A", 1), ("B", 2)]).attempts.map
          (fun a => (0, Instr.write a.rcpt a.payload)) :=
  ⟨by decide,
   C8_broadcast_writes_not_interleaved 0 "A" "A: hi\n" (fun _ => false)
     [("A", 1), ("B", 2)]
     [(1, Instr.acquire), (1, Instr.release)]
     [(0, Instr.write "B" "A: hi\n")] []
     (by decide) (by decide) (by decide)⟩
